import Mathlib

/-!
Shallow embedding of `file_integrity_checker.py` (class `FileIntegrityChecker`).

The persisted store is a JSON object
`{"files": {path: record, ...}, "metadata": {"created": ..., "last_updated": ...}}`.
JSON objects are modelled as association lists with dict semantics (unique keys,
in-place overwrite on update).  Timestamps (`datetime.now().isoformat()`) are
modelled as natural numbers.  The external effects of one engine call —
`os.path.abspath`, `os.path.exists`, `os.stat(...).st_size`, the hash
computation `calculate_file_hash` (hashlib streaming over the file bytes), the
clock, and whether writing the database file succeeds — are bundled in an
environment `Env` passed to each operation.
-/

/-- Lookup in a JSON-object association list: the value stored at key `p`. -/
def dictGet {α : Type} : List (String × α) → String → Option α
  | [], _ => none
  | (k, v) :: rest, p => if p = k then some v else dictGet rest p

/-- Assignment `d[k] = v` on a JSON object: overwrite the first entry with key
`k` in place, or append a new entry when `k` is absent. -/
def dictSet {α : Type} : List (String × α) → String → α → List (String × α)
  | [], k, v => [(k, v)]
  | (k', v') :: rest, k, v =>
      if k' = k then (k, v) :: rest else (k', v') :: dictSet rest k v

/-- Deletion `del d[k]` on a JSON object (keys are unique, so filtering out the
key removes exactly the one entry). -/
def dictDel {α : Type} (l : List (String × α)) (k : String) : List (String × α) :=
  l.filter (fun kv => kv.1 ≠ k)

/-- Python `d.update(i)`: fold the entries of `i` over `d`, overwriting on key
collision and appending fresh keys. -/
def dictUpdate {α : Type} (d i : List (String × α)) : List (String × α) :=
  i.foldl (fun acc kv => dictSet acc kv.1 kv.2) d

/-- One per-file record of the `files` mapping.  Fields the Python code reads
with `.get(..., default)` are `Option`s (they may be absent from the JSON
object); fields it indexes directly (`hash`, `size`, `added_date`) are plain. -/
structure FileRecord where
  hash : String
  algorithm : Option String := none
  size : Nat := 0
  added_date : Nat := 0
  last_checked : Option Nat := none
  description : Option String := none
  check_count : Option Nat := none
  status : Option String := none
  tampered_date : Option Nat := none
deriving Repr, DecidableEq

/-- The `metadata` object of the store. -/
structure Metadata where
  created : Option Nat := none
  last_updated : Option Nat := none
deriving Repr, DecidableEq

/-- The whole persisted store (`self.database`). -/
structure Database where
  files : List (String × FileRecord)
  metadata : Metadata
deriving Repr, DecidableEq

/-- External effects of one engine call. `abspath` is `os.path.abspath`,
`fileExists` is `os.path.exists`, `hashFile path algorithm` is
`calculate_file_hash(path, algorithm)` (`none` when hashing raises
`IOError`/`ValueError`), `fileSize` is `os.stat(path).st_size`, `now` is the
clock, and `saveOk` is whether writing the database file succeeds. -/
structure Env where
  abspath : String → String
  fileExists : String → Bool
  hashFile : String → String → Option String
  fileSize : String → Nat
  now : Nat
  saveOk : Bool

/-- Classification returned by `verify_file`. -/
inductive VerifyStatus where
  | unknown
  | missing
  | error
  | verified
  | tampered
deriving Repr, DecidableEq

/-- The fresh empty store built by `_load_database` when the database file is
absent or malformed: `{"files": {}, "metadata": {"created": now}}`. -/
def freshDatabase (now : Nat) : Database :=
  { files := [], metadata := { created := some now, last_updated := none } }

/-- `_load_database`: `pathExists` is whether the database file exists, and
`parsed` is the result of `json.load` on it (`none` when reading or parsing
raises, in which case the code prints a warning and falls back). -/
def load_database (pathExists : Bool) (parsed : Option Database) (now : Nat) :
    Database :=
  if pathExists then
    match parsed with
    | some d => d
    | none => freshDatabase now
  else freshDatabase now

/-- `_save_database`: stamps `metadata["last_updated"] = now`, then writes the
store; returns the updated in-memory store and whether the write succeeded. -/
def save_database (e : Env) (db : Database) : Database × Bool :=
  ({ db with metadata := { db.metadata with last_updated := some e.now } },
   e.saveOk)

/-- `add_file(file_path, description)`: canonicalize, require the file to
exist, hash it with the hard-coded default "sha256", overwrite the record, and
save.  Returns the Python boolean result together with the in-memory store. -/
def add_file (e : Env) (db : Database) (file_path description : String) :
    Bool × Database :=
  let fp := e.abspath file_path
  if e.fileExists fp then
    match e.hashFile fp "sha256" with
    | none => (false, db)
    | some h =>
        let info : FileRecord :=
          { hash := h, algorithm := some "sha256", size := e.fileSize fp,
            added_date := e.now, last_checked := some e.now,
            description := some description, check_count := some 1,
            status := some "verified", tampered_date := none }
        let s := save_database e { db with files := dictSet db.files fp info }
        (s.2, s.1)
  else (false, db)

/-- `verify_file(file_path)`: the four-way classification.  The recorded
algorithm `stored_info.get("algorithm", "sha256")` drives the re-hash; on a
successful hash the record's `last_checked`, `check_count` and `status` (plus
`tampered_date` on mismatch) are updated and the store is saved, with the save
result discarded exactly as in the source. -/
def verify_file (e : Env) (db : Database) (file_path : String) :
    VerifyStatus × Database :=
  let fp := e.abspath file_path
  match dictGet db.files fp with
  | none => (VerifyStatus.unknown, db)
  | some stored =>
      if e.fileExists fp then
        match e.hashFile fp (stored.algorithm.getD "sha256") with
        | none => (VerifyStatus.error, db)
        | some current =>
            let r1 : FileRecord :=
              { stored with last_checked := some e.now,
                            check_count := some (stored.check_count.getD 0 + 1) }
            if current = stored.hash then
              let r2 : FileRecord := { r1 with status := some "verified" }
              let s := save_database e { db with files := dictSet db.files fp r2 }
              (VerifyStatus.verified, s.1)
            else
              let r2 : FileRecord :=
                { r1 with status := some "tampered",
                          tampered_date := some e.now }
              let s := save_database e { db with files := dictSet db.files fp r2 }
              (VerifyStatus.tampered, s.1)
      else (VerifyStatus.missing, db)

/-- `remove_file(file_path)`: delete the record for the canonicalized path when
present and return the save result; return `False` when absent. -/
def remove_file (e : Env) (db : Database) (file_path : String) : Bool × Database :=
  let fp := e.abspath file_path
  if (dictGet db.files fp).isSome then
    let s := save_database e { db with files := dictDel db.files fp }
    (s.2, s.1)
  else (false, db)

/-- `export_database(export_path)`: `json.dump` the store to the export file.
The written file is modelled by its parsed-back content, and a
`json.dump`/`json.load` round trip is the identity on well-formed stores, so
the content is the store itself; the boolean is the write result. -/
def export_database (e : Env) (db : Database) : Bool × Database :=
  (e.saveOk, db)

/-- The `merge=True` branch of `import_database`:
`self.database["files"].update(imported_data.get("files", {}))` — only the
`files` mapping is merged, key by key. -/
def mergeImport (db idata : Database) : Database :=
  { db with files := dictUpdate db.files idata.files }

/-- `import_database(import_path, merge)`: `imported` is the `json.load` of
the file to import (`none` when reading or parsing raises: the store is
untouched and `False` is returned).  On `merge` only `files` is merged;
otherwise the store is replaced wholesale; either way the result is saved. -/
def import_database (e : Env) (db : Database) (imported : Option Database)
    (merge : Bool) : Bool × Database :=
  match imported with
  | none => (false, db)
  | some idata =>
      let db2 := if merge then mergeImport db idata else idata
      let s := save_database e db2
      (s.2, s.1)

/-- Repeated `verify_file` calls on one path, threading the in-memory store. -/
def verifyTrace (envs : List Env) (db : Database) (p : String) : Database :=
  envs.foldl (fun d e => (verify_file e d p).2) db

/-- Whether a single `verify_file` call on state `d` successfully computes a
current hash, and if so whether it matches the stored hash: `some true` for a
match, `some false` for a mismatch, `none` when the call returns
unknown/missing/error. -/
def callOutcome (e : Env) (d : Database) (p : String) : Option Bool :=
  match dictGet d.files (e.abspath p) with
  | none => none
  | some stored =>
      if e.fileExists (e.abspath p) then
        match e.hashFile (e.abspath p) (stored.algorithm.getD "sha256") with
        | some cur => some (cur = stored.hash)
        | none => none
      else none

/-- The outcome of the most recent call in `envs` that successfully computed a
hash, threading the store just as `verifyTrace` does. -/
def lastOutcome : List Env → Database → String → Option Bool
  | [], _, _ => none
  | e :: rest, d, p =>
      match lastOutcome rest ((verify_file e d p).2) p with
      | some b => some b
      | none => callOutcome e d p

/-- The `status` field of the record stored at path `p` (outer `none`: no
record; inner `none`: record lacks a `status` field). -/
def statusAt (db : Database) (p : String) : Option (Option String) :=
  (dictGet db.files p).map FileRecord.status

/-! Concrete instances used to exercise the operations on closed inputs. -/

/-- A record as created by `add` and later verified: hash "h1", a previous
tamper event at time 2, three checks so far. -/
def recH1 : FileRecord :=
  { hash := "h1", algorithm := some "sha256", size := 4, added_date := 1,
    last_checked := some 1, description := some "", check_count := some 3,
    status := some "verified", tampered_date := some 2 }

/-- A legacy record whose digest was taken under md5. -/
def recMd5 : FileRecord := { hash := "old", algorithm := some "md5" }

/-- A store tracking the single path "f". -/
def dbOne : Database :=
  { files := [("f", recH1)], metadata := { created := some 1, last_updated := some 1 } }

/-- A store whose record for "f" carries the md5 algorithm. -/
def dbMd5 : Database :=
  { files := [("f", recMd5)], metadata := { created := some 1, last_updated := none } }

/-- A store tracking the single path "g", for merge experiments. -/
def dbG : Database :=
  { files := [("g", recMd5)], metadata := { created := some 2, last_updated := none } }

/-- An environment in which the file on disk still hashes to "h1". -/
def eMatch : Env :=
  { abspath := fun s => s, fileExists := fun _ => true,
    hashFile := fun _ _ => some "h1", fileSize := fun _ => 4,
    now := 9, saveOk := true }

/-- An environment in which the file's bytes changed: it now hashes to "h2". -/
def eMismatch : Env := { eMatch with hashFile := fun _ _ => some "h2", now := 8 }

/-- Like `eMismatch`, but writing the database file fails. -/
def eBadSave : Env := { eMismatch with saveOk := false }

/-- An environment whose hashing distinguishes the requested algorithm. -/
def eAlgo : Env :=
  { eMatch with hashFile := fun _ a => if a = "md5" then some "old" else some "x1" }

/-- A second hash oracle that agrees with `eAlgo`'s under md5 but differs from
it under sha256. -/
def altHash : String → String → Option String :=
  fun _ a => if a = "md5" then some "old" else some "x2"

/-! Dictionary lemmas. -/

theorem dictGet_dictSet {α : Type} (l : List (String × α)) (k p : String) (v : α) :
    dictGet (dictSet l k v) p = if p = k then some v else dictGet l p := by
  induction l with
  | nil => simp [dictGet, dictSet]
  | cons hd tl ih =>
      obtain ⟨k', v'⟩ := hd
      by_cases hk : k' = k
      · subst hk
        by_cases hp : p = k' <;> simp [dictGet, dictSet, hp]
      · by_cases hp : p = k'
        · subst hp
          simp [dictGet, dictSet, hk, Ne.symm hk]
        · simp [dictGet, dictSet, hk, hp, ih]

theorem dictGet_eq_none_of_not_mem {α : Type} (l : List (String × α)) (p : String)
    (h : p ∉ l.map Prod.fst) : dictGet l p = none := by
  induction l with
  | nil => simp [dictGet]
  | cons hd tl ih =>
      simp only [List.map_cons, List.mem_cons] at h
      push_neg at h
      simp [dictGet, h.1, ih h.2]

theorem dictGet_dictDel {α : Type} (l : List (String × α)) (k p : String) :
    dictGet (dictDel l k) p = if p = k then none else dictGet l p := by
  induction l with
  | nil => simp [dictGet, dictDel]
  | cons hd tl ih =>
      obtain ⟨k', v'⟩ := hd
      by_cases hk : k' = k
      · subst hk
        by_cases hp : p = k' <;>
          simp_all [dictGet, dictDel, List.filter]
      · by_cases hp : p = k'
        · subst hp
          simp_all [dictGet, dictDel, List.filter, Ne.symm hk]
        · simp_all [dictGet, dictDel, List.filter, hk, hp]

theorem dictGet_dictUpdate {α : Type} (i : List (String × α)) (d : List (String × α))
    (p : String) (hi : (i.map Prod.fst).Nodup) :
    dictGet (dictUpdate d i) p = (dictGet i p).orElse (fun _ => dictGet d p) := by
  induction i generalizing d with
  | nil => simp [dictGet, dictUpdate, Option.orElse]
  | cons hd tl ih =>
      obtain ⟨k, v⟩ := hd
      simp only [List.map_cons, List.nodup_cons] at hi
      have step : dictUpdate d ((k, v) :: tl) = dictUpdate (dictSet d k v) tl := by
        simp [dictUpdate]
      rw [step, ih (dictSet d k v) hi.2]
      by_cases hp : p = k
      · subst hp
        have htl : dictGet tl p = none :=
          dictGet_eq_none_of_not_mem tl p hi.1
        simp [dictGet, htl, dictGet_dictSet, Option.orElse]
      · simp [dictGet, hp, dictGet_dictSet]

/-! Step lemmas for the five branches of `verify_file`. -/

theorem verify_file_unknown (e : Env) (db : Database) (p : String)
    (hrec : dictGet db.files (e.abspath p) = none) :
    verify_file e db p = (VerifyStatus.unknown, db) := by
  simp [verify_file, hrec]

theorem verify_file_missing (e : Env) (db : Database) (p : String)
    (stored : FileRecord)
    (hrec : dictGet db.files (e.abspath p) = some stored)
    (hex : e.fileExists (e.abspath p) = false) :
    verify_file e db p = (VerifyStatus.missing, db) := by
  simp [verify_file, hrec, hex]

theorem verify_file_error (e : Env) (db : Database) (p : String)
    (stored : FileRecord)
    (hrec : dictGet db.files (e.abspath p) = some stored)
    (hex : e.fileExists (e.abspath p) = true)
    (hh : e.hashFile (e.abspath p) (stored.algorithm.getD "sha256") = none) :
    verify_file e db p = (VerifyStatus.error, db) := by
  simp [verify_file, hrec, hex, hh]

theorem verify_file_match (e : Env) (db : Database) (p : String)
    (stored : FileRecord) (cur : String)
    (hrec : dictGet db.files (e.abspath p) = some stored)
    (hex : e.fileExists (e.abspath p) = true)
    (hh : e.hashFile (e.abspath p) (stored.algorithm.getD "sha256") = some cur)
    (heq : cur = stored.hash) :
    verify_file e db p =
      (VerifyStatus.verified,
       { files := dictSet db.files (e.abspath p)
           { stored with last_checked := some e.now,
                         check_count := some (stored.check_count.getD 0 + 1),
                         status := some "verified" },
         metadata := { db.metadata with last_updated := some e.now } }) := by
  simp [verify_file, save_database, hrec, hex, hh, heq]

theorem verify_file_mismatch (e : Env) (db : Database) (p : String)
    (stored : FileRecord) (cur : String)
    (hrec : dictGet db.files (e.abspath p) = some stored)
    (hex : e.fileExists (e.abspath p) = true)
    (hh : e.hashFile (e.abspath p) (stored.algorithm.getD "sha256") = some cur)
    (hne : cur ≠ stored.hash) :
    verify_file e db p =
      (VerifyStatus.tampered,
       { files := dictSet db.files (e.abspath p)
           { stored with last_checked := some e.now,
                         check_count := some (stored.check_count.getD 0 + 1),
                         status := some "tampered",
                         tampered_date := some e.now },
         metadata := { db.metadata with last_updated := some e.now } }) := by
  simp [verify_file, save_database, hrec, hex, hh, hne]

/-- Effect of one `verify_file` call on the status stored at the canonicalized
path, indexed by whether the call computed a hash and whether it matched. -/
theorem statusAt_after_verify (e : Env) (db : Database) (p : String) :
    statusAt ((verify_file e db p).2) (e.abspath p) =
      match callOutcome e db p with
      | some false => some (some "tampered")
      | some true => some (some "verified")
      | none => statusAt db (e.abspath p) := by
  rcases hg : dictGet db.files (e.abspath p) with _ | stored
  · rw [verify_file_unknown e db p hg]
    simp [callOutcome, hg]
  · by_cases hex : e.fileExists (e.abspath p) = true
    · rcases hh : e.hashFile (e.abspath p) (stored.algorithm.getD "sha256") with _ | cur
      · rw [verify_file_error e db p stored hg hex hh]
        simp [callOutcome, hg, hex, hh]
      · by_cases heq : cur = stored.hash
        · rw [verify_file_match e db p stored cur hg hex hh heq]
          simp [callOutcome, statusAt, hg, hex, hh, heq, dictGet_dictSet]
        · rw [verify_file_mismatch e db p stored cur hg hex hh heq]
          simp [callOutcome, statusAt, hg, hex, hh, heq, dictGet_dictSet]
    · have hex' : e.fileExists (e.abspath p) = false := by
        simpa using hex
      rw [verify_file_missing e db p stored hg hex']
      simp [callOutcome, hg, hex']

/-! Claim theorems. -/

/-- C7: loading a store path whose file holds malformed (unparseable) data does
not fail: it falls back to a fresh empty store whose `files` mapping is empty
and whose `created` metadata is the current time, and the very same fresh store
is returned when the store path does not exist. -/
theorem load_database_fresh_fallback (parsed : Option Database) (now : Nat) :
    load_database true none now = freshDatabase now ∧
    load_database false parsed now = freshDatabase now ∧
    (freshDatabase now).files = [] ∧
    (freshDatabase now).metadata.created = some now :=
  ⟨rfl, rfl, rfl, rfl⟩

/-- C5: exporting a store `S` and importing the exported file with
`merge=False` into a fresh empty store yields a store whose path-to-record
entries are exactly those of `S`. -/
theorem export_import_roundtrip (e1 e2 : Env) (S : Database) (n : Nat)
    (hok : (export_database e1 S).1 = true) :
    ((import_database e2 (freshDatabase n)
        (some (export_database e1 S).2) false).2).files = S.files := by
  simp [import_database, export_database, save_database]

/-- C6: merging an imported store `I` into the current store `D` leaves the
store-level metadata untouched by the merge step itself, maps every path
present in `I` to its `I` record and every other path to its `D` record, and
the `merge=True` branch of the import operation produces exactly this merged
`files` mapping. -/
theorem import_merge_spec (e : Env) (D I : Database)
    (hI : (I.files.map Prod.fst).Nodup) :
    (mergeImport D I).metadata = D.metadata ∧
    (∀ p, dictGet (mergeImport D I).files p =
        (dictGet I.files p).orElse (fun _ => dictGet D.files p)) ∧
    (import_database e D (some I) true).2.files = (mergeImport D I).files := by
  refine ⟨rfl, fun p => ?_, ?_⟩
  · exact dictGet_dictUpdate I.files D.files p hI
  · simp [import_database, mergeImport, save_database]

/-- C10: every record created or overwritten by `add` carries the hard-coded
algorithm "sha256" and the digest computed under "sha256", regardless of what
any previous record for the same path stored. -/
theorem add_file_resets_algorithm (e : Env) (db : Database) (p d h : String)
    (hex : e.fileExists (e.abspath p) = true)
    (hh : e.hashFile (e.abspath p) "sha256" = some h) :
    dictGet (add_file e db p d).2.files (e.abspath p) =
      some { hash := h, algorithm := some "sha256",
             size := e.fileSize (e.abspath p), added_date := e.now,
             last_checked := some e.now, description := some d,
             check_count := some 1, status := some "verified",
             tampered_date := none } := by
  simp [add_file, save_database, hex, hh, dictGet_dictSet]

/-- C8: the digest used by `verify` is computed under exactly the algorithm
recorded with the stored record (falling back to "sha256" only when the record
has no algorithm field): replacing the hash oracle by any other oracle that
agrees on the recorded algorithm leaves the whole verification result
unchanged. -/
theorem verify_file_uses_recorded_algorithm (e : Env)
    (h2 : String → String → Option String) (db : Database) (p : String)
    (stored : FileRecord)
    (hrec : dictGet db.files (e.abspath p) = some stored)
    (hagree : h2 (e.abspath p) (stored.algorithm.getD "sha256")
        = e.hashFile (e.abspath p) (stored.algorithm.getD "sha256")) :
    verify_file { e with hashFile := h2 } db p = verify_file e db p := by
  simp [verify_file, save_database, hrec, hagree]

/-- C9 counterexample: a record for the path is present, yet `remove` returns
false because writing the database file fails — so the return value is not
"exactly whether a record existed". -/
theorem remove_false_despite_presence :
    (dictGet dbOne.files (eBadSave.abspath "f")).isSome = true ∧
    (remove_file eBadSave dbOne "f").1 = false := by
  decide

/-- C9 (amended): `remove` deletes the record for the canonicalized path when
one exists and persists the store, returning the save result — true iff a
record existed and the save succeeded; when the path is absent it returns
false rather than signalling an error, leaving the store untouched. -/
theorem remove_file_spec (e : Env) (db : Database) (p : String) :
    ((remove_file e db p).1
        = ((dictGet db.files (e.abspath p)).isSome && e.saveOk)) ∧
    ((dictGet db.files (e.abspath p)).isSome = true →
        dictGet (remove_file e db p).2.files (e.abspath p) = none) ∧
    ((dictGet db.files (e.abspath p)).isSome = false →
        (remove_file e db p).2 = db) ∧
    (∀ q, q ≠ e.abspath p →
        dictGet (remove_file e db p).2.files q = dictGet db.files q) := by
  by_cases hp : (dictGet db.files (e.abspath p)).isSome = true
  · refine ⟨?_, ?_, ?_, ?_⟩
    · simp [remove_file, save_database, hp]
    · intro _
      simp [remove_file, save_database, hp, dictGet_dictDel]
    · intro hq
      rw [hp] at hq
      exact absurd hq (by simp)
    · intro q hq
      simp [remove_file, save_database, hp, dictGet_dictDel, hq]
  · have hp' : (dictGet db.files (e.abspath p)).isSome = false := by
      simpa using hp
    refine ⟨?_, ?_, ?_, ?_⟩
    · simp [remove_file, hp']
    · intro hq
      rw [hp'] at hq
      exact absurd hq (by simp)
    · intro _
      simp [remove_file, hp']
    · intro q _
      simp [remove_file, hp']

/-- C1 counterexample: with a tracked file whose bytes changed and a database
file that cannot be written, `verify` still returns the success classification
`tampered` even though persisting the mutated store failed. -/
theorem verify_success_despite_save_failure :
    (verify_file eBadSave dbOne "f").1 = VerifyStatus.tampered ∧
    eBadSave.saveOk = false := by
  decide

/-- C1 (amended): `add`, `remove` and `import` report failure to the caller
when persisting the updated store fails — they return true only if the save
succeeded — but `verify` does not: its classification ignores the persistence
result, so it returns verified or tampered even when saving the mutated store
failed. -/
theorem persist_failure_reporting (e : Env) (db : Database) (p d q : String)
    (imp : Option Database) (m : Bool) (b : Bool) :
    ((add_file e db p d).1 = true → e.saveOk = true) ∧
    ((remove_file e db q).1 = true → e.saveOk = true) ∧
    ((import_database e db imp m).1 = true → e.saveOk = true) ∧
    ((verify_file { e with saveOk := b } db p).1 = (verify_file e db p).1) := by
  refine ⟨?_, ?_, ?_, ?_⟩
  · by_cases hex : e.fileExists (e.abspath p) = true
    · rcases hh : e.hashFile (e.abspath p) "sha256" with _ | h
      · simp [add_file, hex, hh]
      · simp [add_file, save_database, hex, hh]
    · simp [add_file, hex]
  · by_cases hq : (dictGet db.files (e.abspath q)).isSome = true
    · simp [remove_file, save_database, hq]
    · simp [remove_file, save_database, by simpa using hq]
  · rcases imp with _ | idata
    · simp [import_database]
    · simp [import_database, save_database]
  · rcases hg : dictGet db.files (e.abspath p) with _ | stored
    · rw [verify_file_unknown e db p hg,
          verify_file_unknown { e with saveOk := b } db p hg]
    · by_cases hex : e.fileExists (e.abspath p) = true
      · rcases hh : e.hashFile (e.abspath p) (stored.algorithm.getD "sha256")
          with _ | cur
        · rw [verify_file_error e db p stored hg hex hh,
              verify_file_error { e with saveOk := b } db p stored hg hex hh]
        · by_cases heq : cur = stored.hash
          · rw [verify_file_match e db p stored cur hg hex hh heq,
                verify_file_match { e with saveOk := b } db p stored cur hg hex hh heq]
          · rw [verify_file_mismatch e db p stored cur hg hex hh heq,
                verify_file_mismatch { e with saveOk := b } db p stored cur hg hex hh heq]
      · have hex' : e.fileExists (e.abspath p) = false := by simpa using hex
        rw [verify_file_missing e db p stored hg hex',
            verify_file_missing { e with saveOk := b } db p stored hg hex']

/-- C3: every `verify` call that successfully computes a current hash — whether
it matches or not — bumps the record's `check_count` to its previous value
(defaulting to 0 when absent) plus one, while a call classified unknown,
missing or error leaves the whole store, and hence the record, unchanged. -/
theorem verify_file_check_count (e : Env) (db : Database) (p : String) :
    (∀ stored cur, dictGet db.files (e.abspath p) = some stored →
        e.fileExists (e.abspath p) = true →
        e.hashFile (e.abspath p) (stored.algorithm.getD "sha256") = some cur →
        ∃ r', dictGet (verify_file e db p).2.files (e.abspath p) = some r' ∧
          r'.check_count = some (stored.check_count.getD 0 + 1)) ∧
    ((verify_file e db p).1 = VerifyStatus.unknown ∨
     (verify_file e db p).1 = VerifyStatus.missing ∨
     (verify_file e db p).1 = VerifyStatus.error →
        (verify_file e db p).2 = db) := by
  constructor
  · intro stored cur hrec hex hh
    by_cases heq : cur = stored.hash
    · rw [verify_file_match e db p stored cur hrec hex hh heq]
      refine ⟨{ stored with last_checked := some e.now, check_count := some (stored.check_count.getD 0 + 1), status := some "verified" }, by simp [dictGet_dictSet], rfl⟩
    · rw [verify_file_mismatch e db p stored cur hrec hex hh heq]
      refine ⟨{ stored with last_checked := some e.now, check_count := some (stored.check_count.getD 0 + 1), status := some "tampered", tampered_date := some e.now }, by simp [dictGet_dictSet], rfl⟩
  · intro hst
    rcases hg : dictGet db.files (e.abspath p) with _ | stored
    · rw [verify_file_unknown e db p hg]
    · by_cases hex : e.fileExists (e.abspath p) = true
      · rcases hh : e.hashFile (e.abspath p) (stored.algorithm.getD "sha256")
          with _ | cur
        · rw [verify_file_error e db p stored hg hex hh]
        · by_cases heq : cur = stored.hash
          · rw [verify_file_match e db p stored cur hg hex hh heq] at hst
            simp at hst
          · rw [verify_file_mismatch e db p stored cur hg hex hh heq] at hst
            simp at hst
      · have hex' : e.fileExists (e.abspath p) = false := by simpa using hex
        rw [verify_file_missing e db p stored hg hex']

/-- C4: once a record carries a `tampered_date`, no verify call — on this path
or any other — ever clears it: after the call the record still exists and its
`tampered_date` is either the old timestamp, or, only when the call itself
classified this very path as tampered, the call's fresh timestamp. -/
theorem tampered_date_persists (e : Env) (db : Database) (q a : String)
    (r : FileRecord) (t : Nat)
    (hrec : dictGet db.files a = some r)
    (ht : r.tampered_date = some t) :
    ∃ r', dictGet (verify_file e db q).2.files a = some r' ∧
      (r'.tampered_date = some t ∨
        ((verify_file e db q).1 = VerifyStatus.tampered ∧ e.abspath q = a ∧
         r'.tampered_date = some e.now)) := by
  rcases hg : dictGet db.files (e.abspath q) with _ | stored
  · rw [verify_file_unknown e db q hg]
    exact ⟨r, hrec, Or.inl ht⟩
  · by_cases hex : e.fileExists (e.abspath q) = true
    · rcases hh : e.hashFile (e.abspath q) (stored.algorithm.getD "sha256")
        with _ | cur
      · rw [verify_file_error e db q stored hg hex hh]
        exact ⟨r, hrec, Or.inl ht⟩
      · by_cases heq : cur = stored.hash
        · rw [verify_file_match e db q stored cur hg hex hh heq]
          by_cases ha : a = e.abspath q
          · subst ha
            have hsr : stored = r := by
              rw [hg] at hrec
              exact (Option.some_inj.mp hrec)
            refine ⟨{ stored with last_checked := some e.now, check_count := some (stored.check_count.getD 0 + 1), status := some "verified" }, by simp [dictGet_dictSet], Or.inl ?_⟩
            show stored.tampered_date = some t
            rw [hsr]
            exact ht
          · exact ⟨r, by simpa [dictGet_dictSet, ha] using hrec, Or.inl ht⟩
        · rw [verify_file_mismatch e db q stored cur hg hex hh heq]
          by_cases ha : a = e.abspath q
          · subst ha
            refine ⟨{ stored with last_checked := some e.now, check_count := some (stored.check_count.getD 0 + 1), status := some "tampered", tampered_date := some e.now }, by simp [dictGet_dictSet], Or.inr ⟨rfl, rfl, rfl⟩⟩
          · exact ⟨r, by simpa [dictGet_dictSet, ha] using hrec, Or.inl ht⟩
    · have hex' : e.fileExists (e.abspath q) = false := by simpa using hex
      rw [verify_file_missing e db q stored hg hex']
      exact ⟨r, hrec, Or.inl ht⟩

/-- C2: across any sequence of verify calls on a path, the stored `status` is
"tampered" exactly when the most recent call that successfully computed a
current hash found it different from the stored hash, it is "verified" when
that most recent successful computation matched, and it is untouched when no
call in the sequence computed a hash. -/
theorem verify_status_history : ∀ (envs : List Env) (db : Database) (p A : String),
    (∀ e ∈ envs, e.abspath p = A) →
    statusAt (verifyTrace envs db p) A =
      match lastOutcome envs db p with
      | some false => some (some "tampered")
      | some true => some (some "verified")
      | none => statusAt db A := by
  intro envs
  induction envs with
  | nil =>
      intro db p A hA
      simp [verifyTrace, lastOutcome]
  | cons e rest ih =>
      intro db p A hA
      have heA : e.abspath p = A := hA e (List.mem_cons_self e rest)
      have hrest : ∀ e2 ∈ rest, e2.abspath p = A :=
        fun e2 h2 => hA e2 (List.mem_cons_of_mem e h2)
      have hT : verifyTrace (e :: rest) db p
          = verifyTrace rest ((verify_file e db p).2) p := by
        simp [verifyTrace]
      rw [hT, ih ((verify_file e db p).2) p A hrest]
      have hs := statusAt_after_verify e db p
      rw [heA] at hs
      rcases ho : lastOutcome rest ((verify_file e db p).2) p with _ | b
      · simp only [lastOutcome, ho]
        exact hs
      · cases b <;> simp only [lastOutcome, ho]

/-- Witness for C1: on a concrete input where the save succeeds, `add` reports
success, and the amended theorem recovers that the save indeed succeeded. -/
theorem persist_failure_reporting_witness :
    (add_file eMatch dbOne "f" "d").1 = true ∧ eMatch.saveOk = true := by
  refine ⟨by decide, ?_⟩
  exact (persist_failure_reporting eMatch dbOne "f" "d" "f" none true false).1
    (by decide)

/-- Witness for C2: a mismatching verification followed by a matching one
leaves the record's status at "verified". -/
theorem verify_status_history_witness :
    statusAt (verifyTrace [eMismatch, eMatch] dbOne "f") "f"
      = some (some "verified") := by
  have hA : ∀ e2 ∈ [eMismatch, eMatch], e2.abspath "f" = "f" := by
    intro e2 he
    rcases List.mem_cons.mp he with h1 | h1
    · rw [h1]
      rfl
    · rcases List.mem_cons.mp h1 with h2 | h2
      · rw [h2]
        rfl
      · exact absurd h2 (List.not_mem_nil e2)
  rw [verify_status_history [eMismatch, eMatch] dbOne "f" "f" hA]
  rfl

/-- Witness for C3: a matching verification bumps the check count from 3 to 4. -/
theorem verify_file_check_count_witness :
    ∃ r', dictGet (verify_file eMatch dbOne "f").2.files "f" = some r' ∧
      r'.check_count = some 4 :=
  (verify_file_check_count eMatch dbOne "f").1 recH1 "h1" rfl rfl rfl

/-- Witness for C4: a matching verification leaves the tamper timestamp from
the earlier event in place. -/
theorem tampered_date_persists_witness :
    ∃ r', dictGet (verify_file eMatch dbOne "f").2.files "f" = some r' ∧
      (r'.tampered_date = some 2 ∨
        ((verify_file eMatch dbOne "f").1 = VerifyStatus.tampered ∧
         eMatch.abspath "f" = "f" ∧ r'.tampered_date = some eMatch.now)) :=
  tampered_date_persists eMatch dbOne "f" "f" recH1 2 rfl rfl

/-- Witness for C5: the concrete one-record store survives the round trip. -/
theorem export_import_roundtrip_witness :
    ((import_database eMismatch (freshDatabase 0)
        (some (export_database eMatch dbOne).2) false).2).files = dbOne.files :=
  export_import_roundtrip eMatch eMismatch dbOne 0 rfl

/-- Witness for C6: merging the "g" store into the "f" store keeps metadata,
takes "g" from the import and "f" from the destination. -/
theorem import_merge_spec_witness :
    (mergeImport dbOne dbG).metadata = dbOne.metadata ∧
    dictGet (mergeImport dbOne dbG).files "g" =
      (dictGet dbG.files "g").orElse (fun _ => dictGet dbOne.files "g") ∧
    dictGet (mergeImport dbOne dbG).files "f" =
      (dictGet dbG.files "f").orElse (fun _ => dictGet dbOne.files "f") ∧
    (import_database eMatch dbOne (some dbG) true).2.files
      = (mergeImport dbOne dbG).files := by
  obtain ⟨h1, h2, h3⟩ := import_merge_spec eMatch dbOne dbG (by decide)
  exact ⟨h1, h2 "g", h2 "f", h3⟩

/-- Witness for C8: swapping in a hash oracle that differs under sha256 but
agrees under the recorded md5 leaves the verification result unchanged. -/
theorem verify_file_uses_recorded_algorithm_witness :
    verify_file { eAlgo with hashFile := altHash } dbMd5 "f"
      = verify_file eAlgo dbMd5 "f" :=
  verify_file_uses_recorded_algorithm eAlgo altHash dbMd5 "f" recMd5 rfl rfl

/-- Witness for C9: with a succeeding save, removing the tracked path "f"
returns true, deletes its record and leaves other keys alone. -/
theorem remove_file_spec_witness :
    (remove_file eMatch dbOne "f").1
      = ((dictGet dbOne.files "f").isSome && eMatch.saveOk) ∧
    dictGet (remove_file eMatch dbOne "f").2.files "f" = none ∧
    dictGet (remove_file eMatch dbOne "f").2.files "g" = dictGet dbOne.files "g" := by
  obtain ⟨h1, h2, h3, h4⟩ := remove_file_spec eMatch dbOne "f"
  exact ⟨h1, h2 rfl, h4 "g" (by decide)⟩

/-- Witness for C10: re-adding a path whose record carried md5 silently resets
the record to sha256 with the fresh digest. -/
theorem add_file_resets_algorithm_witness :
    dictGet (add_file eMismatch dbMd5 "f" "d").2.files "f" =
      some { hash := "h2", algorithm := some "sha256", size := 4, added_date := 8,
             last_checked := some 8, description := some "d", check_count := some 1,
             status := some "verified", tampered_date := none } :=
  add_file_resets_algorithm eMismatch dbMd5 "f" "d" "h2" rfl rfl
